import Mathlib

/-!
Verification development for the Tool Studio server
(`tool_studio_server.py`): a shallow embedding of the job orchestration
subsystem (job entity and state machine, log appending, artifact
registration and path safety, stdin construction, the demo simulator and
live subprocess runner, the sliding-window rate limiter, and the retention
sweep), together with theorems settling the spec claims.

Modelling conventions:
* Filesystem paths are lists of components measured from the root
  (`List String`); `Path.resolve()` is modelled by `normalize`, which
  drops `.`/empty components and lets `..` pop one component (staying at
  the root when already there).  The model is symlink-free.
* The filesystem is an explicit parameter `fs : List String → FileKind`
  classifying every absolute path as a regular file, a directory, some
  other kind of entry, or missing.
* Timestamps produced by `utc_now_iso()` are modelled by an abstract
  clock `clock : Nat → String`, indexed by the order of the calls inside
  a worker; the real function formats the current UTC time, which is
  nondecreasing in call order.
* `uuid4()` values are supplied as explicit arguments.
* Python truthiness on strings (`x or y`, `if not s`) is modelled
  explicitly: the empty string is falsy.
-/

namespace ToolStudio

/-- Classification of a filesystem entry at an absolute path: models the
combination of `Path.exists()` and `Path.is_file()`. -/
inductive FileKind where
  | file
  | dir
  | other
  | missing
  deriving DecidableEq, Repr

/-- One step of path resolution: `.` and empty components vanish, `..`
pops the last component (a no-op at the root), anything else descends. -/
def normStep (acc : List String) (c : String) : List String :=
  if c = "" ∨ c = "." then acc
  else if c = ".." then acc.dropLast
  else acc ++ [c]

/-- Lexical resolution of a component list to a normalized absolute path:
models `Path.resolve()` in a symlink-free filesystem. -/
def normalize (comps : List String) : List String :=
  comps.foldl normStep []

/-- A parsed path as `pathlib.Path` sees it: an absolute-or-relative flag
plus raw components (which may still contain `..` or `.`). -/
structure PyPath where
  isAbs : Bool
  comps : List String
  deriving Repr, DecidableEq

/-- Models `str.strip()`: drop whitespace from both ends. -/
def pyStrip (s : String) : String :=
  String.mk (((s.data.dropWhile Char.isWhitespace).reverse.dropWhile
    Char.isWhitespace).reverse)

/-- Split a character list on a separator, keeping empty pieces (the
piece accumulator is in reverse order). -/
def splitOnCharAux (sep : Char) : List Char → List Char → List String
  | [], acc => [String.mk acc.reverse]
  | c :: rest, acc =>
    if c = sep then String.mk acc.reverse :: splitOnCharAux sep rest []
    else splitOnCharAux sep rest (c :: acc)

/-- Models `Path(raw.strip())`: strip surrounding whitespace, an absolute
path starts with a slash, components are the nonempty slash-separated
pieces. -/
def parsePath (s : String) : PyPath :=
  let t := pyStrip s
  { isAbs := t.data.head? == some '/',
    comps := (splitOnCharAux '/' t.data []).filter (fun c => c != "") }

/-- Embedding of `_safe_artifact_path` (tool_studio_server.py:204-214):
parse the raw candidate, join a relative path under the tool's resolved
root, resolve, then require the result to stay within the tool root
(`relative_to`) and to exist as a regular file; otherwise `none`. -/
def _safe_artifact_path (toolRepo : List String) (fs : List String → FileKind)
    (raw_path : String) : Option (List String) :=
  let p0 := parsePath raw_path
  let p := if p0.isAbs then normalize p0.comps else normalize (toolRepo ++ p0.comps)
  if toolRepo.isPrefixOf p then
    if fs p = FileKind.file then some p else none
  else none

/-- Embedding of `is_path_safe_for_job` (tool_studio_server.py:217-229):
re-resolve `p` and accept it iff it lies under the job's sandbox
directory `ARTIFACT_ROOT / job.id` or under the owning tool's resolved
root (when the tool is known). -/
def is_path_safe_for_job (artifactRoot : List String) (toolRepo? : Option (List String))
    (jobId : String) (p : List String) : Bool :=
  let q := normalize p
  let roots := (artifactRoot ++ [jobId]) ::
    (match toolRepo? with
     | some r => [normalize r]
     | none => [])
  roots.any (fun root => root.isPrefixOf q)

/-- One artifact record as built by `register_artifact`: generated short
id, display label, file name (last path component) and the resolved
absolute path.  The Python dict stores the path as `str(p)`, which is
injective on resolved absolute paths, so the component list stands in
for it. -/
structure Artifact where
  id : String
  label : String
  name : String
  path : List String
  deriving Repr, DecidableEq

/-- The Job entity (tool_studio_server.py:125-153).  Timestamps are the
strings produced by the abstract clock. -/
structure Job where
  id : String
  tool : String
  status : String := "queued"
  created_at : String
  started_at : Option String := none
  finished_at : Option String := none
  return_code : Option Int := none
  error : Option String := none
  logs : List String := []
  artifacts : List Artifact := []
  deriving Repr, DecidableEq

/-- A fresh job as created in `do_POST`: `Job(id=uuid4().hex, tool=tool)`
with the dataclass defaults. -/
def mkJob (id tool created : String) : Job :=
  { id := id, tool := tool, created_at := created }

/-- Models `line.rstrip("\n")`: remove trailing newline characters. -/
def rstripNewlines (s : String) : String :=
  String.mk ((s.data.reverse.dropWhile (fun c => c = '\n')).reverse)

/-- Embedding of `append_log` (tool_studio_server.py:180-186) on the log
list: drop trailing newlines, ignore a blank line, append, and when the
length exceeds 1200 discard the oldest 400 lines. -/
def append_log (logs : List String) (line : String) : List String :=
  let clean := rstripNewlines line
  if clean = "" then logs
  else
    let l := logs ++ [clean]
    if 1200 < l.length then l.drop 400 else l

/-- `append_log` lifted to the job it mutates. -/
def appendLogJob (job : Job) (line : String) : Job :=
  { job with logs := append_log job.logs line }

/-- Embedding of `register_artifact` (tool_studio_server.py:189-201):
resolve the path, return the job unchanged when an artifact with the
same resolved path exists, otherwise append a new record whose name is
the path's last component.  `aid` stands for the generated
`uuid4().hex[:8]`. -/
def register_artifact (job : Job) (label : String) (file_path : List String)
    (aid : String) : Job :=
  let p := normalize file_path
  if job.artifacts.any (fun a => a.path == p) then job
  else
    { job with artifacts := job.artifacts ++
        [{ id := aid, label := label, name := p.getLastD "", path := p }] }

/-- Bool-valued substring test: `needle` occurs inside `hay` (models the
Python `in` operator on strings, via the char lists). -/
def hasSub : List Char → List Char → Bool
  | [], needle => needle.isPrefixOf []
  | c :: t, needle => needle.isPrefixOf (c :: t) || hasSub t needle

/-- The label choice of `maybe_register_artifact_from_line`
(tool_studio_server.py:240-246). -/
def labelFor (line : String) : String :=
  if hasSub line.data "Markdown".data then "Markdown"
  else if hasSub line.data "Word doc".data then "Word"
  else if hasSub line.data "Research data saved".data then "Research JSON"
  else "File"

/-- Embedding of `maybe_register_artifact_from_line`
(tool_studio_server.py:232-247).  `extract` models
`ARTIFACT_RE.search(line)` returning the first capture group when the
marker pattern matches; the captured text is then stripped
(`m.group(1).strip()`), validated by `_safe_artifact_path`, and only a
validated path is registered. -/
def maybe_register_artifact_from_line (extract : String → Option String)
    (fs : List String → FileKind) (toolRepo : List String) (aid : String)
    (job : Job) (line : String) : Job :=
  match extract line with
  | none => job
  | some g =>
    let raw_path := pyStrip g
    match _safe_artifact_path toolRepo fs raw_path with
    | none => job
    | some path => register_artifact job (labelFor line) path aid

/-- A JSON payload restricted to its string-valued fields (the only kind
the server's stdin builder consumes). -/
def Payload := String → Option String

/-- Models `(payload.get(k) or "").strip()`: a missing key or an empty
(falsy) value becomes the empty string, then surrounding whitespace is
stripped. -/
def pget (payload : Payload) (k : String) : String :=
  pyStrip ((payload k).getD "")

/-- Models `"\n".join(lines)`. -/
def joinLines : List String → String
  | [] => ""
  | [x] => x
  | x :: rest => x ++ "\n" ++ joinLines rest

/-- Embedding of `build_stdin` (tool_studio_server.py:250-283): per-tool
required-field validation (`ValueError` as `Except.error`), then the
deterministic newline-joined script terminated by a blank-line sentinel
and a final newline. -/
def build_stdin (tool : String) (payload : Payload) : Except String String :=
  if tool = "competitive-deep-dive" then
    let competitor_name := pget payload "competitor_name"
    if competitor_name = "" then Except.error "competitor_name is required"
    else
      let lines := ["1", pget payload "your_project", competitor_name,
                    pget payload "competitor_website", pget payload "competitor_context", ""]
      Except.ok (joinLines lines ++ "\n")
  else if tool = "protocol-positioning" then
    let your_protocol := pget payload "your_protocol_name"
    let competitor_name := pget payload "competitor_name"
    if your_protocol = "" then Except.error "your_protocol_name is required"
    else if competitor_name = "" then Except.error "competitor_name is required"
    else
      let lines := [your_protocol, pget payload "your_protocol_website",
                    pget payload "your_protocol_context", competitor_name,
                    pget payload "competitor_website", pget payload "competitor_context", ""]
      Except.ok (joinLines lines ++ "\n")
  else Except.error "unsupported tool"

/-- Characters the slug keeps: the regex class `[a-z0-9]`. -/
def isSlugChar (c : Char) : Bool :=
  (decide ('a' ≤ c) && decide (c ≤ 'z')) || (decide ('0' ≤ c) && decide (c ≤ '9'))

/-- Collapse adjacent dashes to one: together with mapping every
non-`[a-z0-9]` character to a dash this realises
`re.sub(r"[^a-z0-9]+", "-", ·)`, which replaces each maximal run with a
single dash. -/
def squeezeDashes : List Char → List Char
  | [] => []
  | [c] => [c]
  | a :: b :: rest =>
    if a = '-' && b = '-' then squeezeDashes (b :: rest)
    else a :: squeezeDashes (b :: rest)

/-- Models `str.strip("-")`. -/
def stripDashes (cs : List Char) : List Char :=
  ((cs.dropWhile (fun c => c = '-')).reverse.dropWhile (fun c => c = '-')).reverse

/-- Embedding of `_slug` (tool_studio_server.py:286-287): lower-case,
collapse runs of non-alphanumerics to a single dash, strip surrounding
dashes, fall back to `"project"` when nothing is left (Python `or`). -/
def _slug (text : String) : String :=
  let mapped := text.toLower.data.map (fun c => if isSlugChar c then c else '-')
  let stripped := stripDashes (squeezeDashes mapped)
  if stripped.isEmpty then "project" else String.mk stripped

/-- Default rate-limiter window in seconds (`TOOL_STUDIO_RATE_WINDOW_SEC`
default). -/
def RATE_WINDOW_SEC : ℚ := 60

/-- Default GET budget (`TOOL_STUDIO_RATE_GET_MAX` default). -/
def RATE_GET_MAX : ℕ := 120

/-- Default POST budget (`TOOL_STUDIO_RATE_POST_MAX` default). -/
def RATE_POST_MAX : ℕ := 10

/-- The bucket-level body of `take_rate_slot`
(tool_studio_server.py:462-474): evict timestamps older than the window
from the front of the deque, reject without recording when the remaining
count already meets the budget, otherwise record `now` and accept. -/
def takeRateSlotBucket (q : List ℚ) (now window : ℚ) (maxHits : ℕ) : Bool × List ℚ :=
  let cutoff := now - window
  let q2 := q.dropWhile (fun t => decide (t < cutoff))
  if maxHits ≤ q2.length then (false, q2) else (true, q2 ++ [now])

/-- Embedding of `take_rate_slot` over the whole bucket map: the key is
`ip:method`, the budget is the POST budget exactly for POST and the GET
budget otherwise, and only that key's bucket is touched. -/
def take_rate_slot (buckets : String → List ℚ) (ip method : String) (now : ℚ) :
    Bool × (String → List ℚ) :=
  let key := ip ++ ":" ++ method
  let maxHits := if method = "POST" then RATE_POST_MAX else RATE_GET_MAX
  let r := takeRateSlotBucket (buckets key) now RATE_WINDOW_SEC maxHits
  (r.1, fun k => if k = key then r.2 else buckets k)

/-- Replay a sequence of checks against one bucket, collecting the
admit/reject decisions in order. -/
def rateRun (window : ℚ) (maxHits : ℕ) : List ℚ → List ℚ → List Bool × List ℚ
  | q, [] => ([], q)
  | q, t :: rest =>
    let r := takeRateSlotBucket q t window maxHits
    let rr := rateRun window maxHits r.2 rest
    (r.1 :: rr.1, rr.2)

/-- Default job retention window in seconds
(`TOOL_STUDIO_JOB_RETENTION_SEC` default). -/
def JOB_RETENTION_SEC : ℚ := 3600

/-- The per-job staleness test inside `cleanup_jobs`
(tool_studio_server.py:162-177).  `parseTs` models
`datetime.fromisoformat(s).timestamp()`, with `none` standing for the
`ValueError` branch.  A falsy `finished_at` (absent, or the unreachable
empty string — `if not job.finished_at`) is never stale. -/
def jobStale (parseTs : String → Option ℚ) (cutoff : ℚ) (job : Job) : Bool :=
  match job.finished_at with
  | none => false
  | some s =>
    if s = "" then false
    else
      match parseTs s with
      | none => true
      | some finished => decide (finished < cutoff)

/-- Embedding of `cleanup_jobs` (tool_studio_server.py:162-177) on the
insertion-ordered job map: collect the stale ids and pop them, which is
filtering the stale entries out. -/
def cleanup_jobs (parseTs : String → Option ℚ) (now : ℚ)
    (jobs : List (String × Job)) : List (String × Job) :=
  jobs.filter (fun kv => !jobStale parseTs (now - JOB_RETENTION_SEC) kv.2)

/-- Result of one worker execution: the job's final value together with
the snapshots taken right after each `with JOBS_LOCK` mutation block, in
program order. -/
structure RunResult where
  final : Job
  trace : List Job
  deriving Repr

/-- The primary subject of a demo request (tool_studio_server.py:295-300):
the Python `or`-chain over `competitor_name`, `your_protocol_name`,
`your_project` and the literal `"project"`, where a missing key or an
empty string is falsy. -/
def demoTarget (payload : Payload) : String :=
  let pyOr : Option String → String → String := fun o d =>
    match o with
    | some s => if s = "" then d else s
    | none => d
  pyOr (payload "competitor_name")
    (pyOr (payload "your_protocol_name")
      (pyOr (payload "your_project") "project"))

/-- Embedding of `run_demo_job` (tool_studio_server.py:290-384) on its
normal (exception-free) execution: mark the job running, emit the three
pacing log lines, write the two demo files into the per-job sandbox
`ARTIFACT_ROOT / job.id` and register them, emit the closing log line,
and finish `succeeded` with return code 0.  `aid1`/`aid2` are the
generated artifact ids; file contents (`write_text`) are not modelled
because no claim depends on them.  The `competitive-deep-dive` branch
writes `.md` + `.json`; every other tool takes the `else` branch and
writes `.md` + `.csv`. -/
def run_demo_job (clock : ℕ → String) (aid1 aid2 : String)
    (artifactRoot : List String) (job : Job) (payload : Payload) : RunResult :=
  let j1 := { job with status := "running", started_at := some (clock 1) }
  let target := demoTarget payload
  let target_slug := _slug target
  let out_dir := normalize (artifactRoot ++ [job.id])
  let j2 := appendLogJob j1 ("[demo] Starting " ++ job.tool ++ " for " ++ target ++ "...")
  let j3 := appendLogJob j2 "[demo] Pulling market and narrative signals..."
  let j4 := appendLogJob j3 "[demo] Synthesizing executive recommendations..."
  let j5 :=
    if job.tool = "competitive-deep-dive" then
      let md_path := out_dir ++ ["demo_deepdive_" ++ target_slug ++ ".md"]
      let json_path := out_dir ++ ["demo_deepdive_" ++ target_slug ++ ".json"]
      register_artifact (register_artifact j4 "Markdown" md_path aid1)
        "Research JSON" json_path aid2
    else
      let md_path := out_dir ++ ["demo_positioning_" ++ target_slug ++ ".md"]
      let csv_path := out_dir ++ ["demo_positioning_" ++ target_slug ++ ".csv"]
      register_artifact (register_artifact j4 "Markdown" md_path aid1)
        "Matrix CSV" csv_path aid2
  let j6 := appendLogJob j5 "[demo] Completed successfully."
  let j7 := { j6 with
    return_code := some 0, finished_at := some (clock 2),
    status := "succeeded" }
  { final := j7, trace := [j1, j7] }

/-- Where an exception strikes a demo worker, if anywhere: the sandbox
`mkdir`, the markdown `write_text`, or the second (JSON/CSV)
`write_text` — the fallible filesystem operations of `run_demo_job`. -/
inductive DemoExc where
  | noExc
  | atMkdir (msg : String)
  | atMdWrite (msg : String)
  | atDataWrite (msg : String)
  deriving Repr, DecidableEq

/-- `run_demo_job` instrumented with an exception oracle.  `run_demo_job`
contains no `try`/`except`, so a raised exception propagates out of the
worker immediately, leaving the job exactly as it was at that point:
`mkdir` (line 304) raises before any log line is emitted, and either
`write_text` raises after the three pacing lines but before any artifact
is registered. -/
def run_demo_job_exc (clock : ℕ → String) (aid1 aid2 : String)
    (artifactRoot : List String) (job : Job) (payload : Payload)
    (exc : DemoExc) : RunResult :=
  let j1 := { job with status := "running", started_at := some (clock 1) }
  match exc with
  | DemoExc.atMkdir _ => { final := j1, trace := [j1] }
  | DemoExc.atMdWrite _ =>
    let target := demoTarget payload
    let j2 := appendLogJob j1 ("[demo] Starting " ++ job.tool ++ " for " ++ target ++ "...")
    let j3 := appendLogJob j2 "[demo] Pulling market and narrative signals..."
    let j4 := appendLogJob j3 "[demo] Synthesizing executive recommendations..."
    { final := j4, trace := [j1] }
  | DemoExc.atDataWrite _ =>
    let target := demoTarget payload
    let j2 := appendLogJob j1 ("[demo] Starting " ++ job.tool ++ " for " ++ target ++ "...")
    let j3 := appendLogJob j2 "[demo] Pulling market and narrative signals..."
    let j4 := appendLogJob j3 "[demo] Synthesizing executive recommendations..."
    { final := j4, trace := [j1] }
  | DemoExc.noExc => run_demo_job clock aid1 aid2 artifactRoot job payload

/-- How the external child process behaves, seen from the worker:
either it streams some output lines and exits with a code, or an
exception is raised inside the `try` block (failed spawn, stdin write,
streaming error, or `wait` timeout) after some lines were streamed. -/
inductive LiveOutcome where
  | exits (lines : List String) (rc : Int)
  | streamRaises (lines : List String) (msg : String)
  deriving Repr

/-- The streaming loop of `run_live_job` (tool_studio_server.py:428-430):
for each output line, append it to the log and try to register an
artifact from it; artifact ids are drawn from `ids` at the current
artifact count. -/
def processLines (extract : String → Option String) (fs : List String → FileKind)
    (toolRepo : List String) (ids : ℕ → String) (job : Job)
    (lines : List String) : Job :=
  lines.foldl
    (fun j line =>
      maybe_register_artifact_from_line extract fs toolRepo
        (ids j.artifacts.length) (appendLogJob j line) line)
    job

/-- Render a resolved path the way `str(Path(...))` would, for log and
error messages. -/
def renderPath (p : List String) : String :=
  "/" ++ String.intercalate "/" p

/-- Embedding of `run_live_job` (tool_studio_server.py:387-447).  The
worker first marks the job running; a missing tool repo fails the job
immediately.  The `build_stdin` call (line 407) happens before the
`try` block, so its `ValueError` — impossible for an accepted request,
since `do_POST` already ran it on the same arguments — would propagate
uncaught, leaving the job in status `running`.  Inside the `try`:
streamed lines feed the log and artifact discovery; a clean exit sets
the terminal state from the exit code; an exception is caught and
converted to `failed` with return code `-1` and the exception text. -/
def run_live_job (clock : ℕ → String) (extract : String → Option String)
    (fs : List String → FileKind) (toolRepo : List String) (repoExists : Bool)
    (ids : ℕ → String) (pythonBin : String) (job : Job) (payload : Payload)
    (outcome : LiveOutcome) : RunResult :=
  let j1 := { job with status := "running", started_at := some (clock 1) }
  if !repoExists then
    let j2 := { j1 with
      return_code := some (-1), finished_at := some (clock 2),
      status := "failed",
      error := some ("tool repo not found: " ++ renderPath toolRepo) }
    let j3 := appendLogJob j2 ("[error] tool repo not found: " ++ renderPath toolRepo)
    { final := j3, trace := [j1, j2] }
  else
    match build_stdin job.tool payload with
    | Except.error _ => { final := j1, trace := [j1] }
    | Except.ok _ =>
      let j2 := appendLogJob j1
        ("$ " ++ pythonBin ++ " main.py  (cwd=" ++ renderPath toolRepo ++ ")")
      match outcome with
      | LiveOutcome.exits lines rc =>
        let j3 := processLines extract fs toolRepo ids j2 lines
        let j4 := { j3 with
          return_code := some rc, finished_at := some (clock 2),
          status := if rc = 0 then "succeeded" else "failed",
          error := if rc = 0 then j3.error
                   else some ("tool exited with code " ++ toString rc) }
        { final := j4, trace := [j1, j4] }
      | LiveOutcome.streamRaises lines msg =>
        let j3 := processLines extract fs toolRepo ids j2 lines
        let j4 := { j3 with
          return_code := some (-1), finished_at := some (clock 2),
          status := "failed", error := some msg }
        let j5 := appendLogJob j4 ("[error] " ++ msg)
        { final := j5, trace := [j1, j4] }

/-- The statically known tool names: the keys of `TOOL_DEFS`
(tool_studio_server.py:93-102). -/
def TOOL_NAMES : List String := ["competitive-deep-dive", "protocol-positioning"]

/-- Default concurrency ceiling (`TOOL_STUDIO_MAX_RUNNING_JOBS` default). -/
def MAX_RUNNING_JOBS : ℕ := 2

/-- Embedding of `current_running_jobs` (tool_studio_server.py:457-459):
the number of non-terminal jobs in the store. -/
def current_running_jobs (jobs : List (String × Job)) : ℕ :=
  (jobs.filter (fun kv => kv.2.status == "queued" || kv.2.status == "running")).length

/-- The `/api/run/<tool>` branch of `do_POST`
(tool_studio_server.py:566-591), after the origin, rate-limit and
api-key gates: reject with 429 when the admission gate is full, with 400
for an unknown tool or when `build_stdin` raises on the payload
(creating no job in either case), and otherwise insert a fresh queued
job and answer 202.  Returns the response status code and the updated
job store. -/
def do_POST_run (tool : String) (payload : Payload) (newId : String)
    (clock : ℕ → String) (jobs : List (String × Job)) :
    ℕ × List (String × Job) :=
  if MAX_RUNNING_JOBS ≤ current_running_jobs jobs then (429, jobs)
  else if !(TOOL_NAMES.contains tool) then (400, jobs)
  else
    match build_stdin tool payload with
    | Except.error _ => (400, jobs)
    | Except.ok _ => (202, jobs ++ [(newId, mkJob newId tool (clock 0))])

/-- Outcome of the artifact-download branch: stream the file, answer 404,
or answer 403. -/
inductive ServeOutcome where
  | ok (p : List String)
  | notFound
  | denied
  deriving Repr, DecidableEq

/-- The `/api/jobs/<id>/artifacts/<aid>` branch of `do_GET`
(tool_studio_server.py:624-658), given the job was found: look the
artifact up by id (404 when absent), re-resolve its stored path, answer
404 unless it still exists as a regular file, 403 unless the re-resolved
path is safe for the job, and only then serve the file. -/
def serveArtifact (fs : List String → FileKind) (artifactRoot : List String)
    (toolRepo? : Option (List String)) (job : Job) (artifact_id : String) :
    ServeOutcome :=
  match job.artifacts.find? (fun a => a.id == artifact_id) with
  | none => ServeOutcome.notFound
  | some a =>
    let file_path := normalize a.path
    if fs file_path ≠ FileKind.file then ServeOutcome.notFound
    else if !is_path_safe_for_job artifactRoot toolRepo? job.id file_path then
      ServeOutcome.denied
    else ServeOutcome.ok file_path

/-! ## Concrete fixtures used by witnesses and counterexamples -/

/-- A concrete job holding one artifact, for the C9 witness. -/
def cexJobC9 : Job :=
  { mkJob "j" "competitive-deep-dive" "0" with
    artifacts := [{ id := "a1", label := "Markdown", name := "f.md",
                    path := ["tmp", "j", "f.md"] }] }

/-- A concrete timestamp parser: only the string `"5"` parses, to time 5. -/
def cexParse : String → Option ℚ := fun s => if s = "5" then some 5 else none

/-- A concrete finished job whose timestamp parses far in the past. -/
def cexFinishedJobC10 : Job :=
  { mkJob "j2" "competitive-deep-dive" "0" with
    status := "succeeded", finished_at := some "5" }

/-- A concrete job store holding one running and one stale finished job. -/
def cexStoreC10 : List (String × Job) :=
  [("j1", { mkJob "j1" "competitive-deep-dive" "0" with status := "running" }),
   ("j2", cexFinishedJobC10)]

/-- A concrete filesystem with exactly one regular file under the tool
root. -/
def cexFsC3 : List String → FileKind :=
  fun p => if p = ["dev", "cdd", "out.md"] then FileKind.file else FileKind.missing

/-- A concrete payload carrying only `competitor_name = "Acme"`. -/
def payloadAcme : Payload :=
  fun k => if k = "competitor_name" then some "Acme" else none

/-- A concrete clock for witnesses: the tick index, printed. -/
def cexClock : ℕ → String := fun n => toString n

/-! ## Helper lemmas -/

/-- `append_log` preserves the 1200-line cap. -/
lemma append_log_length_le (logs : List String) (line : String)
    (h : logs.length ≤ 1200) : (append_log logs line).length ≤ 1200 := by
  unfold append_log
  by_cases hc : rstripNewlines line = ""
  · simpa [hc] using h
  · simp only [hc, if_false]
    split
    · simp only [List.length_drop, List.length_append, List.length_cons,
        List.length_nil]
      omega
    · next hle =>
      simp only [List.length_append, List.length_cons, List.length_nil] at hle ⊢
      omega

/-- Folding `append_log` over any emission keeps the cap. -/
lemma foldl_append_log_length_le (lines logs : List String)
    (h : logs.length ≤ 1200) : (lines.foldl append_log logs).length ≤ 1200 := by
  induction lines generalizing logs with
  | nil => simpa using h
  | cons l rest ih => exact ih _ (append_log_length_le _ _ h)

/-- Folding `append_log` yields a suffix of the cleaned nonempty lines,
in emission order. -/
lemma foldl_append_log_suffix (lines : List String) :
    ∀ logs S : List String, logs <:+ S →
      lines.foldl append_log logs <:+
        S ++ (lines.map rstripNewlines).filter (fun s => s != "") := by
  induction lines with
  | nil => intro logs S h; simpa using h
  | cons l rest ih =>
    intro logs S h
    simp only [List.foldl_cons, List.map_cons]
    by_cases hc : rstripNewlines l = ""
    · have h2 : append_log logs l = logs := by simp [append_log, hc]
      rw [h2]
      simpa [hc] using ih logs S h
    · have h1 : logs ++ [rstripNewlines l] <:+ S ++ [rstripNewlines l] := by
        obtain ⟨t, ht⟩ := h
        exact ⟨t, by rw [← List.append_assoc, ht]⟩
      have h2 : append_log logs l <:+ S ++ [rstripNewlines l] := by
        unfold append_log
        simp only [hc, if_false]
        split
        · exact (List.drop_suffix _ _).trans h1
        · exact h1
      have h3 := ih (append_log logs l) (S ++ [rstripNewlines l]) h2
      have h4 : (rstripNewlines l :: rest.map rstripNewlines).filter
          (fun s => s != "") =
          rstripNewlines l :: (rest.map rstripNewlines).filter (fun s => s != "") := by
        simp [List.filter_cons, hc]
      rw [h4]
      simpa [List.append_assoc] using h3

/-! ## C4: the log cap -/

/-- C4: after every call to the log-append operation the stored log
holds at most 1200 lines, however many lines were emitted; and an append
of a nonblank line that would push the log past the cap discards the
oldest 400 lines, leaving the most recent lines as a suffix (hence in
emission order) of the full cleaned emission. -/
theorem C4_log_cap_invariant :
    (∀ lines : List String, (lines.foldl append_log []).length ≤ 1200) ∧
    (∀ lines : List String,
      (lines.foldl append_log []) <:+
        (lines.map rstripNewlines).filter (fun s => s != "")) ∧
    (∀ logs line, rstripNewlines line ≠ "" →
      1200 < (logs ++ [rstripNewlines line]).length →
      append_log logs line = (logs ++ [rstripNewlines line]).drop 400) := by
  refine ⟨fun lines => foldl_append_log_length_le lines [] (by simp),
    fun lines => ?_, fun logs line hc hlen => ?_⟩
  · simpa using foldl_append_log_suffix lines [] [] (by simp)
  · unfold append_log
    simp only []
    rw [if_neg hc, if_pos hlen]

/-- Witness for C4 at concrete inputs: a nonblank line appended to a
full 1200-line log triggers the oldest-400 drop. -/
theorem C4_log_cap_invariant_witness :
    rstripNewlines "b" ≠ "" ∧
    1200 < (List.replicate 1200 "x" ++ [rstripNewlines "b"]).length ∧
    append_log (List.replicate 1200 "x") "b" =
      (List.replicate 1200 "x" ++ [rstripNewlines "b"]).drop 400 := by
  have hne : rstripNewlines "b" ≠ "" := by decide
  have hlen : 1200 < (List.replicate 1200 "x" ++ [rstripNewlines "b"]).length := by
    simp only [List.length_append, List.length_replicate, List.length_cons,
      List.length_nil]
    omega
  exact ⟨hne, hlen, C4_log_cap_invariant.2.2 (List.replicate 1200 "x") "b" hne hlen⟩

/-! ## C9: artifact de-duplication -/

/-- C9: registering an artifact whose path resolves to one already in
the job's artifact list leaves the job unchanged, and registration
preserves the at-most-one-record-per-resolved-path invariant. -/
theorem C9_register_artifact_dedup :
    (∀ (job : Job) (label : String) (p : List String) (aid : String),
      (∃ a ∈ job.artifacts, a.path = normalize p) →
      register_artifact job label p aid = job) ∧
    (∀ (job : Job) (label : String) (p : List String) (aid : String),
      (job.artifacts.map Artifact.path).Nodup →
      ((register_artifact job label p aid).artifacts.map Artifact.path).Nodup) := by
  constructor
  · intro job label p aid h
    obtain ⟨a, ha, hpath⟩ := h
    have : job.artifacts.any (fun a => a.path == normalize p) = true := by
      rw [List.any_eq_true]
      exact ⟨a, ha, by simpa using hpath⟩
    simp [register_artifact, this]
  · intro job label p aid h
    by_cases hany : job.artifacts.any (fun a => a.path == normalize p)
    · have heq : register_artifact job label p aid = job := by
        simp [register_artifact, hany]
      rw [heq]; exact h
    · have heq : (register_artifact job label p aid).artifacts =
          job.artifacts ++
            [{ id := aid, label := label,
               name := (normalize p).getLastD "", path := normalize p }] := by
        simp [register_artifact, hany]
      have hni : normalize p ∉ job.artifacts.map Artifact.path := by
        intro hmem
        obtain ⟨a, ha, hpath⟩ := List.mem_map.mp hmem
        exact hany (List.any_eq_true.mpr ⟨a, ha, by simpa using hpath⟩)
      rw [heq]
      simp only [List.map_append, List.map_cons, List.map_nil]
      rw [List.nodup_append]
      refine ⟨h, List.nodup_singleton _, ?_⟩
      intro x hx hx1
      simp only [List.mem_singleton] at hx1
      exact hni (hx1 ▸ hx)

/-- Witness for C9: re-registering an existing path at a concrete job
leaves it unchanged, and the path-uniqueness invariant is preserved. -/
theorem C9_register_artifact_dedup_witness :
    (∃ a ∈ cexJobC9.artifacts, a.path = normalize ["tmp", "j", "f.md"]) ∧
    register_artifact cexJobC9 "Word" ["tmp", "j", "f.md"] "a2" = cexJobC9 ∧
    (cexJobC9.artifacts.map Artifact.path).Nodup ∧
    ((register_artifact cexJobC9 "Word" ["tmp", "j", "f.md"] "a2").artifacts.map
      Artifact.path).Nodup := by
  have h1 : ∃ a ∈ cexJobC9.artifacts, a.path = normalize ["tmp", "j", "f.md"] := by
    refine ⟨_, List.mem_singleton_self _, ?_⟩
    decide
  refine ⟨h1, C9_register_artifact_dedup.1 cexJobC9 "Word" _ "a2" h1, by decide, ?_⟩
  exact C9_register_artifact_dedup.2 cexJobC9 "Word" _ "a2" (by decide)

/-! ## C10: the retention sweep -/

/-- C10: the sweep never removes a job whose `finished_at` is unset
(whatever its status or age); among jobs with a nonempty `finished_at`,
exactly those whose timestamp parses to a time older than the retention
window, or fails to parse, are removed; and the sweep is a sublist
filter — every surviving entry is kept with all fields untouched and in
order. -/
theorem C10_cleanup_only_finished :
    (∀ (parseTs : String → Option ℚ) (now : ℚ) (jobs : List (String × Job))
       (id : String) (job : Job),
      (id, job) ∈ jobs → job.finished_at = none →
      (id, job) ∈ cleanup_jobs parseTs now jobs) ∧
    (∀ (parseTs : String → Option ℚ) (now : ℚ) (jobs : List (String × Job))
       (id : String) (job : Job) (s : String),
      (id, job) ∈ jobs → job.finished_at = some s → s ≠ "" →
      ((id, job) ∈ cleanup_jobs parseTs now jobs ↔
        ¬(parseTs s = none ∨
          ∃ t, parseTs s = some t ∧ t < now - JOB_RETENTION_SEC))) ∧
    (∀ (parseTs : String → Option ℚ) (now : ℚ) (jobs : List (String × Job)),
      (cleanup_jobs parseTs now jobs).Sublist jobs) := by
  refine ⟨fun parseTs now jobs id job hmem hfin => ?_,
    fun parseTs now jobs id job s hmem hfin hs => ?_,
    fun parseTs now jobs => List.filter_sublist _⟩
  · rw [cleanup_jobs, List.mem_filter]
    exact ⟨hmem, by simp [jobStale, hfin]⟩
  · rw [cleanup_jobs, List.mem_filter]
    constructor
    · rintro ⟨-, hkeep⟩ hbad
      rw [Bool.not_eq_eq_eq_not, Bool.not_true] at hkeep
      rcases hbad with hnone | ⟨t, hpt, hlt⟩
      · simp [jobStale, hfin, hs, hnone] at hkeep
      · simp [jobStale, hfin, hs, hpt, hlt] at hkeep
    · intro hgood
      refine ⟨hmem, ?_⟩
      cases hpt : parseTs s with
      | none => exact absurd (Or.inl hpt) hgood
      | some t =>
        have hts : ¬t < now - JOB_RETENTION_SEC :=
          fun hlt => hgood (Or.inr ⟨t, hpt, hlt⟩)
        simp [jobStale, hfin, hs, hpt, hts]

/-- Witness for C10 at a concrete store: a running job with no
`finished_at` survives a sweep that removes a stale finished job. -/
theorem C10_cleanup_only_finished_witness :
    (("j1", { mkJob "j1" "competitive-deep-dive" "0" with status := "running" }) ∈
        cexStoreC10 ∧
      ("j1", { mkJob "j1" "competitive-deep-dive" "0" with status := "running" }) ∈
        cleanup_jobs cexParse 10000 cexStoreC10) ∧
    ¬(("j2", cexFinishedJobC10) ∈ cleanup_jobs cexParse 10000 cexStoreC10) := by
  constructor
  · refine ⟨by decide, ?_⟩
    exact C10_cleanup_only_finished.1 cexParse 10000 cexStoreC10 "j1" _ (by decide) rfl
  · intro hmem
    have h2 := (C10_cleanup_only_finished.2.1 cexParse 10000 cexStoreC10 "j2"
      cexFinishedJobC10 "5" (by decide) rfl (by decide)).mp hmem
    exact h2 (Or.inr ⟨5, rfl, by norm_num [JOB_RETENTION_SEC]⟩)

/-! ## C6: the sliding-window rate limiter -/

/-- A bucket none of whose timestamps are older than the cutoff is left
intact by eviction. -/
lemma dropWhile_eq_self_of_all {q : List ℚ} {cutoff : ℚ}
    (h : ∀ x ∈ q, ¬x < cutoff) :
    q.dropWhile (fun t => decide (t < cutoff)) = q := by
  cases q with
  | nil => rfl
  | cons a t => simp [List.dropWhile_cons, h a (List.mem_cons_self a t)]

/-- Replaying requests whose timestamps all lie within one window of
each other (and of the existing bucket entries) never evicts, so the
decisions depend only on the running count: the i-th request is admitted
exactly while the bucket has room. -/
lemma rateRun_no_evict (window : ℚ) (maxHits : ℕ) :
    ∀ (ts q : List ℚ),
      (∀ x ∈ q, ∀ t ∈ ts, ¬x < t - window) →
      (∀ a ∈ ts, ∀ b ∈ ts, ¬a < b - window) →
      (rateRun window maxHits q ts).1 =
        (List.range ts.length).map (fun i => decide (q.length + i < maxHits)) := by
  intro ts
  induction ts with
  | nil => intro q hq hts; rfl
  | cons t rest ih =>
    intro q hq hts
    have hnoev : q.dropWhile (fun x => decide (x < t - window)) = q :=
      dropWhile_eq_self_of_all (fun x hx => hq x hx t (List.mem_cons_self _ _))
    have hrange : (List.range (rest.length + 1)).map
        (fun i => decide (q.length + i < maxHits)) =
        decide (q.length < maxHits) ::
          (List.range rest.length).map
            (fun i => decide (q.length + (i + 1) < maxHits)) := by
      rw [List.range_succ_eq_map]
      simp [List.map_map, Function.comp_def]
    simp only [rateRun, takeRateSlotBucket, hnoev, List.length_cons]
    by_cases hfull : maxHits ≤ q.length
    · rw [if_pos hfull]
      simp only []
      rw [ih q (fun x hx u hu => hq x hx u (List.mem_cons_of_mem _ hu))
        (fun a ha b hb => hts a (List.mem_cons_of_mem _ ha) b (List.mem_cons_of_mem _ hb))]
      rw [hrange]
      have h0 : decide (q.length < maxHits) = false := by
        simp only [decide_eq_false_iff_not, not_lt]; exact hfull
      rw [h0]
      congr 1
      refine List.map_congr_left (fun i _ => ?_)
      have ha : decide (q.length + i < maxHits) = false := by
        simp only [decide_eq_false_iff_not, not_lt]; omega
      have hb : decide (q.length + (i + 1) < maxHits) = false := by
        simp only [decide_eq_false_iff_not, not_lt]; omega
      rw [ha, hb]
    · rw [if_neg hfull]
      simp only []
      have hq2 : ∀ x ∈ q ++ [t], ∀ u ∈ rest, ¬x < u - window := by
        intro x hx u hu
        rcases List.mem_append.mp hx with hx1 | hx1
        · exact hq x hx1 u (List.mem_cons_of_mem _ hu)
        · rw [List.mem_singleton] at hx1
          subst hx1
          exact hts x (List.mem_cons_self _ _) u (List.mem_cons_of_mem _ hu)
      rw [ih (q ++ [t]) hq2
        (fun a ha b hb => hts a (List.mem_cons_of_mem _ ha) b (List.mem_cons_of_mem _ hb))]
      rw [hrange]
      have h0 : decide (q.length < maxHits) = true := by
        simp only [decide_eq_true_eq]; omega
      rw [h0]
      congr 1
      refine List.map_congr_left (fun i _ => ?_)
      have hlen : (q ++ [t]).length + i = q.length + (i + 1) := by
        simp only [List.length_append, List.length_cons, List.length_nil]; omega
      rw [hlen]

/-- C6: per (client, method) key the limiter is an exact sliding-window
budget.  (a) From an empty bucket, requests all within one window of
each other are admitted exactly while fewer than the budget have been
recorded — so the budget+1-th is rejected; (b) a full bucket with no
evictable entry rejects and is left unchanged; (c) once the window has
elapsed past every recorded timestamp the key is admitted again; (d) the
POST budget applies exactly to POST, the GET budget otherwise, and a
check touches no other key's bucket. -/
theorem C6_rate_limiter_budget :
    (∀ (ts : List ℚ) (maxHits : ℕ) (window : ℚ),
      (∀ a ∈ ts, ∀ b ∈ ts, ¬a < b - window) →
      (rateRun window maxHits [] ts).1 =
        (List.range ts.length).map (fun i => decide (i < maxHits))) ∧
    (∀ (q : List ℚ) (now window : ℚ) (maxHits : ℕ),
      (∀ x ∈ q, ¬x < now - window) → maxHits ≤ q.length →
      takeRateSlotBucket q now window maxHits = (false, q)) ∧
    (∀ (q : List ℚ) (now window : ℚ) (maxHits : ℕ),
      0 < maxHits → (∀ x ∈ q, x < now - window) →
      takeRateSlotBucket q now window maxHits = (true, [now])) ∧
    (∀ (buckets : String → List ℚ) (ip method : String) (now : ℚ),
      (take_rate_slot buckets ip method now).1 =
        (takeRateSlotBucket (buckets (ip ++ ":" ++ method)) now RATE_WINDOW_SEC
          (if method = "POST" then RATE_POST_MAX else RATE_GET_MAX)).1 ∧
      (∀ k, k ≠ ip ++ ":" ++ method →
        (take_rate_slot buckets ip method now).2 k = buckets k)) := by
  refine ⟨fun ts maxHits window hts => ?_, fun q now window maxHits hq hfull => ?_,
    fun q now window maxHits hpos hq => ?_, fun buckets ip method now => ⟨rfl, ?_⟩⟩
  · have := rateRun_no_evict window maxHits ts [] (by simp) hts
    simpa using this
  · have hnoev : q.dropWhile (fun x => decide (x < now - window)) = q :=
      dropWhile_eq_self_of_all hq
    simp [takeRateSlotBucket, hnoev, hfull]
  · have hnil : q.dropWhile (fun x => decide (x < now - window)) = [] := by
      rw [List.dropWhile_eq_nil_iff]
      intro x hx
      simpa using hq x hx
    simp [takeRateSlotBucket, hnil, Nat.not_le.mpr hpos]
  · intro k hk
    simp [take_rate_slot, hk]

/-- Witness for C6 at concrete inputs: with budget 2 and window 60,
three requests at times 0, 1, 2 from an empty bucket are decided
admit/admit/reject; a bucket stamped at time 0 admits again at time 70;
and a POST check leaves an unrelated key's bucket alone. -/
theorem C6_rate_limiter_budget_witness :
    (rateRun 60 2 [] [0, 1, 2]).1 =
      (List.range 3).map (fun i => decide (i < 2)) ∧
    takeRateSlotBucket [0] 70 60 10 = (true, [70]) ∧
    (take_rate_slot (fun _ => [5]) "1.2.3.4" "POST" 9).2 "other" = [5] := by
  refine ⟨?_, ?_, ?_⟩
  · refine C6_rate_limiter_budget.1 [0, 1, 2] 2 60 ?_
    intro a ha b hb
    fin_cases ha <;> fin_cases hb <;> norm_num
  · refine C6_rate_limiter_budget.2.2.1 [0] 70 60 10 (by decide) ?_
    intro x hx
    fin_cases hx
    norm_num
  · exact (C6_rate_limiter_budget.2.2.2 (fun _ => [5]) "1.2.3.4" "POST" 9).2
      "other" (by decide)

/-! ## C5: required-field validation -/

/-- C5: for a known tool whose payload is missing a required field or
carries only blank content in it, `build_stdin` raises a validation
error and the run endpoint answers 400 with the job store unchanged (no
job created); with every required field present and nonblank,
`build_stdin` returns the newline-joined script, newline-terminated and
ending in the blank-line sentinel. -/
theorem C5_validation_gate :
    (∀ payload : Payload, pget payload "competitor_name" = "" →
      (∃ e, build_stdin "competitive-deep-dive" payload = Except.error e) ∧
      ∀ (newId : String) (clock : ℕ → String) (jobs : List (String × Job)),
        current_running_jobs jobs < MAX_RUNNING_JOBS →
        do_POST_run "competitive-deep-dive" payload newId clock jobs = (400, jobs)) ∧
    (∀ payload : Payload,
      pget payload "your_protocol_name" = "" ∨ pget payload "competitor_name" = "" →
      (∃ e, build_stdin "protocol-positioning" payload = Except.error e) ∧
      ∀ (newId : String) (clock : ℕ → String) (jobs : List (String × Job)),
        current_running_jobs jobs < MAX_RUNNING_JOBS →
        do_POST_run "protocol-positioning" payload newId clock jobs = (400, jobs)) ∧
    (∀ payload : Payload, pget payload "competitor_name" ≠ "" →
      ∃ ls, build_stdin "competitive-deep-dive" payload =
          Except.ok (joinLines ls ++ "\n") ∧
        ls ≠ [] ∧ ls.getLast? = some "") ∧
    (∀ payload : Payload,
      pget payload "your_protocol_name" ≠ "" → pget payload "competitor_name" ≠ "" →
      ∃ ls, build_stdin "protocol-positioning" payload =
          Except.ok (joinLines ls ++ "\n") ∧
        ls ≠ [] ∧ ls.getLast? = some "") := by
  refine ⟨fun payload h =>
      ⟨⟨"competitor_name is required", by simp [build_stdin, h]⟩, ?_⟩,
    fun payload h => ⟨?_, ?_⟩, fun payload h => ?_, fun payload h1 h2 => ?_⟩
  · intro newId clock jobs hgate
    simp [do_POST_run, TOOL_NAMES, Nat.not_le.mpr hgate, build_stdin, h]
  · rcases h with h | h
    · exact ⟨"your_protocol_name is required", by simp [build_stdin, h]⟩
    · by_cases h1 : pget payload "your_protocol_name" = ""
      · exact ⟨"your_protocol_name is required", by simp [build_stdin, h1]⟩
      · exact ⟨"competitor_name is required", by simp [build_stdin, h, h1]⟩
  · intro newId clock jobs hgate
    rcases h with h | h
    · simp [do_POST_run, TOOL_NAMES, Nat.not_le.mpr hgate, build_stdin, h]
    · by_cases h1 : pget payload "your_protocol_name" = "" <;>
        simp [do_POST_run, TOOL_NAMES, Nat.not_le.mpr hgate, build_stdin, h, h1]
  · exact ⟨["1", pget payload "your_project", pget payload "competitor_name",
      pget payload "competitor_website", pget payload "competitor_context", ""],
      by simp [build_stdin, h], by simp, rfl⟩
  · exact ⟨[pget payload "your_protocol_name", pget payload "your_protocol_website",
      pget payload "your_protocol_context", pget payload "competitor_name",
      pget payload "competitor_website", pget payload "competitor_context", ""],
      by simp [build_stdin, h1, h2], by simp, rfl⟩

/-- Witness for C5 at concrete inputs: the empty payload is rejected
with 400 and an untouched empty store, while the `"Acme"` payload
produces a sentinel-terminated script. -/
theorem C5_validation_gate_witness :
    (pget (fun _ => none) "competitor_name" = "" ∧
      do_POST_run "competitive-deep-dive" (fun _ => none) "j1" cexClock [] =
        (400, []) ∧
      current_running_jobs [] < MAX_RUNNING_JOBS) ∧
    (pget payloadAcme "competitor_name" ≠ "" ∧
      ∃ ls, build_stdin "competitive-deep-dive" payloadAcme =
          Except.ok (joinLines ls ++ "\n") ∧ ls ≠ [] ∧ ls.getLast? = some "") := by
  have h0 : pget (fun _ => none) "competitor_name" = "" := by decide
  have hA : pget payloadAcme "competitor_name" ≠ "" := by decide
  have hgate : current_running_jobs [] < MAX_RUNNING_JOBS := by decide
  exact ⟨⟨h0, (C5_validation_gate.1 (fun _ => none) h0).2 "j1" cexClock [] hgate, hgate⟩,
    hA, C5_validation_gate.2.2.1 payloadAcme hA⟩

/-! ## C3: artifact path containment -/

/-- Resolution output never contains empty, `.` or `..` components. -/
lemma normalize_mem {l : List String} :
    ∀ c ∈ normalize l, ¬(c = "" ∨ c = "." ∨ c = "..") := by
  suffices h : ∀ (acc : List String),
      (∀ c ∈ acc, ¬(c = "" ∨ c = "." ∨ c = "..")) →
      ∀ c ∈ l.foldl normStep acc, ¬(c = "" ∨ c = "." ∨ c = "..") by
    exact h [] (by simp)
  induction l with
  | nil => intro acc hacc; simpa using hacc
  | cons x rest ih =>
    intro acc hacc
    simp only [List.foldl_cons]
    refine ih (normStep acc x) ?_
    intro c hc
    unfold normStep at hc
    split at hc
    · exact hacc c hc
    · split at hc
      · exact hacc c (List.dropLast_subset _ hc)
      · next h1 h2 =>
        rcases List.mem_append.mp hc with hc1 | hc1
        · exact hacc c hc1
        · rw [List.mem_singleton] at hc1
          subst hc1
          intro hbad
          rcases hbad with hb | hb | hb
          · exact h1 (Or.inl hb)
          · exact h1 (Or.inr hb)
          · exact h2 hb

/-- A component list without special components resolves to itself. -/
lemma normalize_eq_self {l : List String}
    (h : ∀ c ∈ l, ¬(c = "" ∨ c = "." ∨ c = "..")) : normalize l = l := by
  suffices hg : ∀ acc : List String, l.foldl normStep acc = acc ++ l by
    simpa using hg []
  induction l with
  | nil => intro acc; simp
  | cons x rest ih =>
    intro acc
    have hx := h x (List.mem_cons_self _ _)
    have hstep : normStep acc x = acc ++ [x] := by
      unfold normStep
      rw [if_neg, if_neg]
      · intro hb; exact hx (Or.inr (Or.inr hb))
      · intro hb
        rcases hb with hb | hb
        · exact hx (Or.inl hb)
        · exact hx (Or.inr (Or.inl hb))
    simp only [List.foldl_cons, hstep]
    rw [ih (fun c hc => h c (List.mem_cons_of_mem _ hc)) (acc ++ [x])]
    simp

/-- Resolution is idempotent. -/
lemma normalize_idem (l : List String) : normalize (normalize l) = normalize l :=
  normalize_eq_self normalize_mem

/-- The containment core of `_safe_artifact_path`: when the guarded
validation yields a path, that path extends the tool root and is a
regular file. -/
lemma safeAux {toolRepo : List String} {fs : List String → FileKind}
    {q p : List String}
    (h : (if toolRepo.isPrefixOf q = true then
        if fs q = FileKind.file then some q else none
      else none) = some p) :
    toolRepo <+: p ∧ fs p = FileKind.file := by
  split at h
  · next hpre =>
    split at h
    · next hf =>
      rw [Option.some_inj] at h
      subst h
      exact ⟨List.isPrefixOf_iff_prefix.mp hpre, hf⟩
    · exact absurd h (by simp)
  · exact absurd h (by simp)

/-- C3: (1) a candidate path from subprocess output is registered only
when its resolved form — relative candidates joined under the tool's
root first — stays within the tool root and is a regular file, so `..`
traversal cannot escape; (2) a failed validation silently leaves the job
unchanged (no artifact, no error); (3) a download is served only when
the re-resolved stored path lies under the job's sandbox directory or
the owning tool's root; (4) a found, existing artifact whose re-resolved
path is not safe for the job is denied with 403. -/
theorem C3_artifact_path_containment :
    (∀ (toolRepo : List String) (fs : List String → FileKind) (raw : String)
       (p : List String),
      _safe_artifact_path toolRepo fs raw = some p →
      toolRepo <+: p ∧ fs p = FileKind.file) ∧
    (∀ (extract : String → Option String) (fs : List String → FileKind)
       (toolRepo : List String) (aid : String) (job : Job) (line : String),
      (∀ g, extract line = some g →
        _safe_artifact_path toolRepo fs (pyStrip g) = none) →
      maybe_register_artifact_from_line extract fs toolRepo aid job line = job) ∧
    (∀ (fs : List String → FileKind) (artifactRoot : List String)
       (toolRepo? : Option (List String)) (job : Job) (aid : String)
       (p : List String),
      serveArtifact fs artifactRoot toolRepo? job aid = ServeOutcome.ok p →
      (artifactRoot ++ [job.id]) <+: p ∨
        ∃ r, toolRepo? = some r ∧ normalize r <+: p) ∧
    (∀ (fs : List String → FileKind) (artifactRoot : List String)
       (toolRepo? : Option (List String)) (job : Job) (aid : String) (a : Artifact),
      job.artifacts.find? (fun x => x.id == aid) = some a →
      fs (normalize a.path) = FileKind.file →
      is_path_safe_for_job artifactRoot toolRepo? job.id (normalize a.path) = false →
      serveArtifact fs artifactRoot toolRepo? job aid = ServeOutcome.denied) := by
  refine ⟨fun toolRepo fs raw p h => ?_, fun extract fs toolRepo aid job line h => ?_,
    fun fs artifactRoot toolRepo? job aid p h => ?_,
    fun fs artifactRoot toolRepo? job aid a hfind hfile hsafe => ?_⟩
  · unfold _safe_artifact_path at h
    dsimp only [] at h
    split at h <;> exact safeAux h
  · unfold maybe_register_artifact_from_line
    cases hext : extract line with
    | none => rfl
    | some g =>
      simp only []
      rw [h g hext]
  · unfold serveArtifact at h
    cases hfind : job.artifacts.find? (fun x => x.id == aid) with
    | none => rw [hfind] at h; exact absurd h (by simp)
    | some a =>
      rw [hfind] at h
      simp only [] at h
      split at h
      · exact absurd h (by simp)
      · split at h
        · exact absurd h (by simp)
        · next hsafe =>
          rw [ServeOutcome.ok.injEq] at h
          subst h
          rw [Bool.not_eq_true', Bool.not_eq_false] at hsafe
          unfold is_path_safe_for_job at hsafe
          rw [List.any_eq_true] at hsafe
          obtain ⟨root, hroot, hpre⟩ := hsafe
          rw [normalize_idem] at hpre
          have hpre2 := List.isPrefixOf_iff_prefix.mp hpre
          rcases List.mem_cons.mp hroot with hr | hr
          · subst hr; exact Or.inl hpre2
          · cases toolRepo? with
            | none => simp at hr
            | some r =>
              rw [List.mem_singleton] at hr
              subst hr
              exact Or.inr ⟨r, rfl, hpre2⟩
  · unfold serveArtifact
    rw [hfind]
    simp only []
    rw [if_neg (by simp [hfile]), if_pos (by simp [hsafe])]

/-- Witness for C3 at concrete inputs: a relative candidate under the
tool root is validated and contained; a traversal candidate is silently
dropped; and serving an artifact whose stored path escaped both roots is
denied. -/
theorem C3_artifact_path_containment_witness :
    (_safe_artifact_path ["dev", "cdd"] cexFsC3 "out.md" =
        some ["dev", "cdd", "out.md"] ∧
      ["dev", "cdd"] <+: ["dev", "cdd", "out.md"] ∧
      cexFsC3 ["dev", "cdd", "out.md"] = FileKind.file) ∧
    maybe_register_artifact_from_line (fun _ => some "../../etc/passwd") cexFsC3
      ["dev", "cdd"] "a9" cexJobC9 "Markdown: ../../etc/passwd" = cexJobC9 ∧
    serveArtifact (fun _ => FileKind.file) ["arts"] (some ["dev", "cdd"])
      cexJobC9 "a1" = ServeOutcome.denied := by
  refine ⟨⟨by decide, ?_⟩, ?_, ?_⟩
  · exact C3_artifact_path_containment.1 ["dev", "cdd"] cexFsC3 "out.md"
      ["dev", "cdd", "out.md"] (by decide)
  · refine C3_artifact_path_containment.2.1 (fun _ => some "../../etc/passwd")
      cexFsC3 ["dev", "cdd"] "a9" cexJobC9 "Markdown: ../../etc/passwd" ?_
    intro g hg
    rw [Option.some_inj] at hg
    subst hg
    decide
  · exact C3_artifact_path_containment.2.2.2 (fun _ => FileKind.file) ["arts"]
      (some ["dev", "cdd"]) cexJobC9 "a1"
      { id := "a1", label := "Markdown", name := "f.md",
        path := ["tmp", "j", "f.md"] } (by decide) rfl (by decide)

/-! ## C2: forward-only status transitions -/

@[simp] lemma mkJob_status (id tool created : String) :
    (mkJob id tool created).status = "queued" := rfl

@[simp] lemma mkJob_tool (id tool created : String) :
    (mkJob id tool created).tool = tool := rfl

@[simp] lemma mkJob_started_at (id tool created : String) :
    (mkJob id tool created).started_at = none := rfl

@[simp] lemma mkJob_finished_at (id tool created : String) :
    (mkJob id tool created).finished_at = none := rfl

@[simp] lemma mkJob_return_code (id tool created : String) :
    (mkJob id tool created).return_code = none := rfl

@[simp] lemma mkJob_error (id tool created : String) :
    (mkJob id tool created).error = none := rfl

@[simp] lemma mkJob_id (id tool created : String) :
    (mkJob id tool created).id = id := rfl

@[simp] lemma mkJob_artifacts (id tool created : String) :
    (mkJob id tool created).artifacts = [] := rfl

@[simp] lemma appendLogJob_status (j : Job) (l : String) :
    (appendLogJob j l).status = j.status := rfl

@[simp] lemma appendLogJob_started_at (j : Job) (l : String) :
    (appendLogJob j l).started_at = j.started_at := rfl

@[simp] lemma appendLogJob_finished_at (j : Job) (l : String) :
    (appendLogJob j l).finished_at = j.finished_at := rfl

@[simp] lemma appendLogJob_return_code (j : Job) (l : String) :
    (appendLogJob j l).return_code = j.return_code := rfl

@[simp] lemma appendLogJob_error (j : Job) (l : String) :
    (appendLogJob j l).error = j.error := rfl

@[simp] lemma appendLogJob_tool (j : Job) (l : String) :
    (appendLogJob j l).tool = j.tool := rfl

@[simp] lemma appendLogJob_id (j : Job) (l : String) :
    (appendLogJob j l).id = j.id := rfl

@[simp] lemma appendLogJob_artifacts (j : Job) (l : String) :
    (appendLogJob j l).artifacts = j.artifacts := rfl

@[simp] lemma register_artifact_status (j : Job) (label : String)
    (p : List String) (aid : String) :
    (register_artifact j label p aid).status = j.status := by
  unfold register_artifact; dsimp only []; split <;> rfl

@[simp] lemma register_artifact_started_at (j : Job) (label : String)
    (p : List String) (aid : String) :
    (register_artifact j label p aid).started_at = j.started_at := by
  unfold register_artifact; dsimp only []; split <;> rfl

@[simp] lemma register_artifact_finished_at (j : Job) (label : String)
    (p : List String) (aid : String) :
    (register_artifact j label p aid).finished_at = j.finished_at := by
  unfold register_artifact; dsimp only []; split <;> rfl

@[simp] lemma register_artifact_return_code (j : Job) (label : String)
    (p : List String) (aid : String) :
    (register_artifact j label p aid).return_code = j.return_code := by
  unfold register_artifact; dsimp only []; split <;> rfl

@[simp] lemma register_artifact_error (j : Job) (label : String)
    (p : List String) (aid : String) :
    (register_artifact j label p aid).error = j.error := by
  unfold register_artifact; dsimp only []; split <;> rfl

@[simp] lemma register_artifact_tool (j : Job) (label : String)
    (p : List String) (aid : String) :
    (register_artifact j label p aid).tool = j.tool := by
  unfold register_artifact; dsimp only []; split <;> rfl

@[simp] lemma register_artifact_id (j : Job) (label : String)
    (p : List String) (aid : String) :
    (register_artifact j label p aid).id = j.id := by
  unfold register_artifact; dsimp only []; split <;> rfl

/-- A single streamed line never touches the status, timestamps, return
code or error of a job. -/
lemma maybe_register_preserves (extract : String → Option String)
    (fs : List String → FileKind) (toolRepo : List String) (aid : String)
    (j : Job) (l : String) :
    (maybe_register_artifact_from_line extract fs toolRepo aid j l).status =
        j.status ∧
      (maybe_register_artifact_from_line extract fs toolRepo aid j l).started_at =
        j.started_at ∧
      (maybe_register_artifact_from_line extract fs toolRepo aid j l).finished_at =
        j.finished_at ∧
      (maybe_register_artifact_from_line extract fs toolRepo aid j l).return_code =
        j.return_code ∧
      (maybe_register_artifact_from_line extract fs toolRepo aid j l).error =
        j.error := by
  unfold maybe_register_artifact_from_line
  cases extract l with
  | none => exact ⟨rfl, rfl, rfl, rfl, rfl⟩
  | some g =>
    dsimp only []
    cases _safe_artifact_path toolRepo fs (pyStrip g) with
    | none => exact ⟨rfl, rfl, rfl, rfl, rfl⟩
    | some path => simp

/-- The streaming loop never touches the status, timestamps, return code
or error of a job. -/
lemma processLines_preserves (extract : String → Option String)
    (fs : List String → FileKind) (toolRepo : List String) (ids : ℕ → String)
    (lines : List String) :
    ∀ job : Job,
      (processLines extract fs toolRepo ids job lines).status = job.status ∧
      (processLines extract fs toolRepo ids job lines).started_at = job.started_at ∧
      (processLines extract fs toolRepo ids job lines).finished_at = job.finished_at ∧
      (processLines extract fs toolRepo ids job lines).return_code = job.return_code ∧
      (processLines extract fs toolRepo ids job lines).error = job.error := by
  induction lines with
  | nil => intro job; exact ⟨rfl, rfl, rfl, rfl, rfl⟩
  | cons l rest ih =>
    intro job
    have h1 := maybe_register_preserves extract fs toolRepo
      (ids job.artifacts.length) (appendLogJob job l) l
    simp only [appendLogJob_status, appendLogJob_started_at,
      appendLogJob_finished_at, appendLogJob_return_code, appendLogJob_error] at h1
    have h2 := ih (maybe_register_artifact_from_line extract fs toolRepo
      (ids job.artifacts.length) (appendLogJob job l) l)
    simp only [processLines, List.foldl_cons] at h2 ⊢
    exact ⟨h2.1.trans h1.1, h2.2.1.trans h1.2.1, h2.2.2.1.trans h1.2.2.1,
      h2.2.2.2.1.trans h1.2.2.2.1, h2.2.2.2.2.trans h1.2.2.2.2⟩

@[simp] lemma processLines_status (extract : String → Option String)
    (fs : List String → FileKind) (toolRepo : List String) (ids : ℕ → String)
    (job : Job) (lines : List String) :
    (processLines extract fs toolRepo ids job lines).status = job.status :=
  (processLines_preserves extract fs toolRepo ids lines job).1

@[simp] lemma processLines_started_at (extract : String → Option String)
    (fs : List String → FileKind) (toolRepo : List String) (ids : ℕ → String)
    (job : Job) (lines : List String) :
    (processLines extract fs toolRepo ids job lines).started_at = job.started_at :=
  (processLines_preserves extract fs toolRepo ids lines job).2.1

@[simp] lemma processLines_finished_at (extract : String → Option String)
    (fs : List String → FileKind) (toolRepo : List String) (ids : ℕ → String)
    (job : Job) (lines : List String) :
    (processLines extract fs toolRepo ids job lines).finished_at = job.finished_at :=
  (processLines_preserves extract fs toolRepo ids lines job).2.2.1

@[simp] lemma processLines_return_code (extract : String → Option String)
    (fs : List String → FileKind) (toolRepo : List String) (ids : ℕ → String)
    (job : Job) (lines : List String) :
    (processLines extract fs toolRepo ids job lines).return_code = job.return_code :=
  (processLines_preserves extract fs toolRepo ids lines job).2.2.2.1

@[simp] lemma processLines_error (extract : String → Option String)
    (fs : List String → FileKind) (toolRepo : List String) (ids : ℕ → String)
    (job : Job) (lines : List String) :
    (processLines extract fs toolRepo ids job lines).error = job.error :=
  (processLines_preserves extract fs toolRepo ids lines job).2.2.2.2

/-- C2: a fresh job starts `queued`; in both modes the runner's two
store mutations are first `running` (setting `started_at` from the
earlier clock tick, `finished_at` still unset) and then exactly one
terminal status (setting `return_code` and `finished_at` from the later
clock tick) — so the status sequence is exactly
`queued, running, succeeded|failed`, never backwards, never skipping
`running`, with `started_at` set strictly before `finished_at`.  The
live part assumes the request was accepted, i.e. `build_stdin` succeeds
on the same arguments as at admission time. -/
theorem C2_status_forward_only :
    (∀ id tool created : String, (mkJob id tool created).status = "queued") ∧
    (∀ (clock : ℕ → String) (aid1 aid2 : String) (artifactRoot : List String)
       (id tool created : String) (payload : Payload),
      (run_demo_job clock aid1 aid2 artifactRoot (mkJob id tool created)
          payload).trace.map Job.status = ["running", "succeeded"] ∧
      (run_demo_job clock aid1 aid2 artifactRoot (mkJob id tool created)
          payload).trace.map Job.started_at = [some (clock 1), some (clock 1)] ∧
      (run_demo_job clock aid1 aid2 artifactRoot (mkJob id tool created)
          payload).trace.map Job.finished_at = [none, some (clock 2)] ∧
      (run_demo_job clock aid1 aid2 artifactRoot (mkJob id tool created)
          payload).final.status = "succeeded" ∧
      (run_demo_job clock aid1 aid2 artifactRoot (mkJob id tool created)
          payload).final.return_code.isSome = true) ∧
    (∀ (clock : ℕ → String) (extract : String → Option String)
       (fs : List String → FileKind) (toolRepo : List String) (repoExists : Bool)
       (ids : ℕ → String) (pythonBin : String) (id tool created : String)
       (payload : Payload) (outcome : LiveOutcome),
      (∃ s, build_stdin tool payload = Except.ok s) →
      ∃ t, (t = "succeeded" ∨ t = "failed") ∧
        (run_live_job clock extract fs toolRepo repoExists ids pythonBin
            (mkJob id tool created) payload outcome).trace.map Job.status =
          ["running", t] ∧
        (run_live_job clock extract fs toolRepo repoExists ids pythonBin
            (mkJob id tool created) payload outcome).trace.map Job.started_at =
          [some (clock 1), some (clock 1)] ∧
        (run_live_job clock extract fs toolRepo repoExists ids pythonBin
            (mkJob id tool created) payload outcome).trace.map Job.finished_at =
          [none, some (clock 2)] ∧
        (run_live_job clock extract fs toolRepo repoExists ids pythonBin
            (mkJob id tool created) payload outcome).final.status = t ∧
        (run_live_job clock extract fs toolRepo repoExists ids pythonBin
            (mkJob id tool created) payload outcome).final.return_code.isSome =
          true) := by
  refine ⟨fun id tool created => rfl,
    fun clock aid1 aid2 artifactRoot id tool created payload =>
      ⟨by simp [run_demo_job, apply_ite Job.status],
       by simp [run_demo_job, apply_ite Job.started_at],
       by simp [run_demo_job, apply_ite Job.finished_at],
       by simp [run_demo_job, apply_ite Job.status],
       by simp [run_demo_job, apply_ite Job.return_code]⟩,
    fun clock extract fs toolRepo repoExists ids pythonBin id tool created
      payload outcome hb => ?_⟩
  obtain ⟨s, hs⟩ := hb
  cases repoExists with
  | false =>
    exact ⟨"failed", Or.inr rfl, by simp [run_live_job], by simp [run_live_job],
      by simp [run_live_job], by simp [run_live_job], by simp [run_live_job]⟩
  | true =>
    cases outcome with
    | exits lines rc =>
      refine ⟨if rc = 0 then "succeeded" else "failed", ?_, ?_, ?_, ?_, ?_, ?_⟩
      · by_cases h0 : rc = 0
        · exact Or.inl (by rw [if_pos h0])
        · exact Or.inr (by rw [if_neg h0])
      all_goals simp [run_live_job, hs]
    | streamRaises lines msg =>
      exact ⟨"failed", Or.inr rfl, by simp [run_live_job, hs],
        by simp [run_live_job, hs], by simp [run_live_job, hs],
        by simp [run_live_job, hs], by simp [run_live_job, hs]⟩

/-- Witness for C2 at concrete inputs: a live run of the accepted
`"Acme"` request whose process exits 0 moves
`queued → running → succeeded`. -/
theorem C2_status_forward_only_witness :
    ∃ t, (t = "succeeded" ∨ t = "failed") ∧
      (run_live_job cexClock (fun _ => none) cexFsC3 ["dev", "cdd"] true
          (fun _ => "a") "python3" (mkJob "j1" "competitive-deep-dive" "0")
          payloadAcme (LiveOutcome.exits [] 0)).trace.map Job.status =
        ["running", t] ∧
      (run_live_job cexClock (fun _ => none) cexFsC3 ["dev", "cdd"] true
          (fun _ => "a") "python3" (mkJob "j1" "competitive-deep-dive" "0")
          payloadAcme (LiveOutcome.exits [] 0)).trace.map Job.started_at =
        [some (cexClock 1), some (cexClock 1)] ∧
      (run_live_job cexClock (fun _ => none) cexFsC3 ["dev", "cdd"] true
          (fun _ => "a") "python3" (mkJob "j1" "competitive-deep-dive" "0")
          payloadAcme (LiveOutcome.exits [] 0)).trace.map Job.finished_at =
        [none, some (cexClock 2)] ∧
      (run_live_job cexClock (fun _ => none) cexFsC3 ["dev", "cdd"] true
          (fun _ => "a") "python3" (mkJob "j1" "competitive-deep-dive" "0")
          payloadAcme (LiveOutcome.exits [] 0)).final.status = t ∧
      (run_live_job cexClock (fun _ => none) cexFsC3 ["dev", "cdd"] true
          (fun _ => "a") "python3" (mkJob "j1" "competitive-deep-dive" "0")
          payloadAcme (LiveOutcome.exits [] 0)).final.return_code.isSome = true :=
  C2_status_forward_only.2.2 cexClock (fun _ => none) cexFsC3 ["dev", "cdd"] true
    (fun _ => "a") "python3" "j1" "competitive-deep-dive" "0" payloadAcme
    (LiveOutcome.exits [] 0) ⟨"1\n\nAcme\n\n\n\n", rfl⟩

/-! ## C7: live exit-code handling -/

/-- C7: an accepted live job whose child exits with code `rc` ends
`succeeded` with return code 0 and no error when `rc = 0`, and ends
`failed` with return code `rc` and error
`"tool exited with code <rc>"` when `rc` is nonzero. -/
theorem C7_live_exit_codes :
    ∀ (clock : ℕ → String) (extract : String → Option String)
      (fs : List String → FileKind) (toolRepo : List String) (ids : ℕ → String)
      (pythonBin : String) (id tool created : String) (payload : Payload)
      (lines : List String) (rc : Int),
      (∃ s, build_stdin tool payload = Except.ok s) →
      (rc = 0 →
        (run_live_job clock extract fs toolRepo true ids pythonBin
            (mkJob id tool created) payload
            (LiveOutcome.exits lines rc)).final.status = "succeeded" ∧
        (run_live_job clock extract fs toolRepo true ids pythonBin
            (mkJob id tool created) payload
            (LiveOutcome.exits lines rc)).final.return_code = some 0 ∧
        (run_live_job clock extract fs toolRepo true ids pythonBin
            (mkJob id tool created) payload
            (LiveOutcome.exits lines rc)).final.error = none) ∧
      (rc ≠ 0 →
        (run_live_job clock extract fs toolRepo true ids pythonBin
            (mkJob id tool created) payload
            (LiveOutcome.exits lines rc)).final.status = "failed" ∧
        (run_live_job clock extract fs toolRepo true ids pythonBin
            (mkJob id tool created) payload
            (LiveOutcome.exits lines rc)).final.return_code = some rc ∧
        (run_live_job clock extract fs toolRepo true ids pythonBin
            (mkJob id tool created) payload
            (LiveOutcome.exits lines rc)).final.error =
          some ("tool exited with code " ++ toString rc)) := by
  intro clock extract fs toolRepo ids pythonBin id tool created payload lines rc hb
  obtain ⟨s, hs⟩ := hb
  constructor
  · intro h0
    subst h0
    refine ⟨?_, ?_, ?_⟩ <;> simp [run_live_job, hs]
  · intro h0
    refine ⟨?_, ?_, ?_⟩ <;> simp [run_live_job, hs, h0]

/-- Witness for C7: a live `"Acme"` job whose process exits 2 ends
failed with return code 2 and the exact message
`tool exited with code 2`. -/
theorem C7_live_exit_codes_witness :
    (2 : Int) ≠ 0 ∧
    (run_live_job cexClock (fun _ => none) cexFsC3 ["dev", "cdd"] true
        (fun _ => "a") "python3" (mkJob "j1" "competitive-deep-dive" "0")
        payloadAcme (LiveOutcome.exits [] 2)).final.status = "failed" ∧
    (run_live_job cexClock (fun _ => none) cexFsC3 ["dev", "cdd"] true
        (fun _ => "a") "python3" (mkJob "j1" "competitive-deep-dive" "0")
        payloadAcme (LiveOutcome.exits [] 2)).final.return_code = some 2 ∧
    (run_live_job cexClock (fun _ => none) cexFsC3 ["dev", "cdd"] true
        (fun _ => "a") "python3" (mkJob "j1" "competitive-deep-dive" "0")
        payloadAcme (LiveOutcome.exits [] 2)).final.error =
      some "tool exited with code 2" := by
  have h := (C7_live_exit_codes cexClock (fun _ => none) cexFsC3 ["dev", "cdd"]
    (fun _ => "a") "python3" "j1" "competitive-deep-dive" "0" payloadAcme [] 2
    ⟨"1\n\nAcme\n\n\n\n", rfl⟩).2 (by decide)
  exact ⟨by decide, h.1, h.2.1, h.2.2⟩

/-! ## C8: demo-mode success and artifact naming -/

/-- Resolving one more ordinary component just appends it. -/
lemma normalize_snoc (xs : List String) (c : String)
    (hc : ¬(c = "" ∨ c = "." ∨ c = "..")) :
    normalize (xs ++ [c]) = normalize xs ++ [c] := by
  unfold normalize
  rw [List.foldl_append]
  simp only [List.foldl_cons, List.foldl_nil]
  unfold normStep
  rw [if_neg (fun h => hc (Or.elim h Or.inl (fun h2 => Or.inr (Or.inl h2)))),
    if_neg (fun h => hc (Or.inr (Or.inr h)))]

/-- A string of length at least three is none of the special path
components. -/
lemma long_ne_special {s : String} (h : 3 ≤ s.length) :
    ¬(s = "" ∨ s = "." ∨ s = "..") := by
  intro hbad
  rcases hbad with hb | hb | hb <;> subst hb <;> exact absurd h (by decide)

/-- The demo file names (`demo_deepdive_…`, `demo_positioning_…`) are
ordinary components. -/
lemma demo_name_ne_special (pre s post : String) (h : 3 ≤ pre.length) :
    ¬(pre ++ s ++ post = "" ∨ pre ++ s ++ post = "." ∨ pre ++ s ++ post = "..") := by
  refine long_ne_special ?_
  rw [String.length_append, String.length_append]
  omega

/-- Registering two distinct fresh file names under a resolved directory
onto a job with no artifacts yields exactly those two records, in
order. -/
lemma register_two_fresh (j : Job) (hj : j.artifacts = []) (out : List String)
    (hout : normalize out = out) (f1 f2 l1 l2 aid1 aid2 : String)
    (hf1 : ¬(f1 = "" ∨ f1 = "." ∨ f1 = ".."))
    (hf2 : ¬(f2 = "" ∨ f2 = "." ∨ f2 = "..")) (hne : f1 ≠ f2) :
    (register_artifact (register_artifact j l1 (out ++ [f1]) aid1) l2
        (out ++ [f2]) aid2).artifacts =
      [{ id := aid1, label := l1, name := f1, path := out ++ [f1] },
       { id := aid2, label := l2, name := f2, path := out ++ [f2] }] := by
  have hp1 : normalize (out ++ [f1]) = out ++ [f1] := by
    rw [normalize_snoc _ _ hf1, hout]
  have hp2 : normalize (out ++ [f2]) = out ++ [f2] := by
    rw [normalize_snoc _ _ hf2, hout]
  have hinner : register_artifact j l1 (out ++ [f1]) aid1 =
      { j with artifacts :=
          [{ id := aid1, label := l1, name := f1, path := out ++ [f1] }] } := by
    unfold register_artifact
    dsimp only []
    rw [hj]
    simp only [List.any_nil, Bool.false_eq_true, if_false, hp1,
      List.getLastD_concat, List.nil_append]
  rw [hinner]
  unfold register_artifact
  dsimp only []
  rw [hp2]
  have hne2 : ((out ++ [f1] : List String) == out ++ [f2]) = false := by
    rw [beq_eq_false_iff_ne]
    intro hcontra
    have h := List.append_cancel_left hcontra
    simp only [List.cons.injEq, and_true] at h
    exact hne h
  simp only [List.any_cons, List.any_nil, Bool.or_false, hne2,
    Bool.false_eq_true, if_false, List.getLastD_concat]
  rfl

/-- The accumulated demo log lines and artifact registrations leave the
artifact list of the pre-registration job empty. -/
lemma demo_j4_artifacts (j1 : Job) (h : j1.artifacts = []) (a b c : String) :
    (appendLogJob (appendLogJob (appendLogJob j1 a) b) c).artifacts = [] := by
  simp [h]

/-- C8: every accepted demo run ends `succeeded` with return code 0 and
registers exactly two artifacts — markdown plus JSON for
`competitive-deep-dive`, markdown plus CSV for `protocol-positioning` —
whose file names use the slug of the request's primary subject, with
`"project"` as fallback. -/
theorem C8_demo_success_two_artifacts :
    ∀ (clock : ℕ → String) (aid1 aid2 : String) (artifactRoot : List String)
      (id created : String) (payload : Payload),
      ((run_demo_job clock aid1 aid2 artifactRoot
          (mkJob id "competitive-deep-dive" created) payload).final.status =
        "succeeded" ∧
       (run_demo_job clock aid1 aid2 artifactRoot
          (mkJob id "competitive-deep-dive" created) payload).final.return_code =
        some 0 ∧
       (run_demo_job clock aid1 aid2 artifactRoot
          (mkJob id "competitive-deep-dive" created) payload).final.artifacts.map
          Artifact.name =
        ["demo_deepdive_" ++ _slug (demoTarget payload) ++ ".md",
         "demo_deepdive_" ++ _slug (demoTarget payload) ++ ".json"] ∧
       (run_demo_job clock aid1 aid2 artifactRoot
          (mkJob id "competitive-deep-dive" created) payload).final.artifacts.map
          Artifact.label = ["Markdown", "Research JSON"]) ∧
      ((run_demo_job clock aid1 aid2 artifactRoot
          (mkJob id "protocol-positioning" created) payload).final.status =
        "succeeded" ∧
       (run_demo_job clock aid1 aid2 artifactRoot
          (mkJob id "protocol-positioning" created) payload).final.return_code =
        some 0 ∧
       (run_demo_job clock aid1 aid2 artifactRoot
          (mkJob id "protocol-positioning" created) payload).final.artifacts.map
          Artifact.name =
        ["demo_positioning_" ++ _slug (demoTarget payload) ++ ".md",
         "demo_positioning_" ++ _slug (demoTarget payload) ++ ".csv"] ∧
       (run_demo_job clock aid1 aid2 artifactRoot
          (mkJob id "protocol-positioning" created) payload).final.artifacts.map
          Artifact.label = ["Markdown", "Matrix CSV"]) := by
  intro clock aid1 aid2 artifactRoot id created payload
  have hmd : ("demo_deepdive_" ++ _slug (demoTarget payload) ++ ".md" : String) ≠
      "demo_deepdive_" ++ _slug (demoTarget payload) ++ ".json" := by
    intro hcontra
    have hlen := congrArg String.length hcontra
    simp only [String.length_append] at hlen
    have h3 : (".md" : String).length = 3 := rfl
    have h5 : (".json" : String).length = 5 := rfl
    omega
  have hmd2 : ("demo_positioning_" ++ _slug (demoTarget payload) ++ ".md" : String) ≠
      "demo_positioning_" ++ _slug (demoTarget payload) ++ ".csv" := by
    intro hcontra
    have hlen := congrArg String.length hcontra
    simp only [String.length_append] at hlen
    have h3 : (".md" : String).length = 3 := rfl
    have h4 : (".csv" : String).length = 4 := rfl
    omega
  constructor
  · have hartifacts : (run_demo_job clock aid1 aid2 artifactRoot
        (mkJob id "competitive-deep-dive" created) payload).final.artifacts =
        [{ id := aid1, label := "Markdown",
           name := "demo_deepdive_" ++ _slug (demoTarget payload) ++ ".md",
           path := normalize (artifactRoot ++ [(mkJob id "competitive-deep-dive"
             created).id]) ++
             ["demo_deepdive_" ++ _slug (demoTarget payload) ++ ".md"] },
         { id := aid2, label := "Research JSON",
           name := "demo_deepdive_" ++ _slug (demoTarget payload) ++ ".json",
           path := normalize (artifactRoot ++ [(mkJob id "competitive-deep-dive"
             created).id]) ++
             ["demo_deepdive_" ++ _slug (demoTarget payload) ++ ".json"] }] := by
      simp only [run_demo_job, mkJob_tool, if_true]
      dsimp only [appendLogJob_artifacts]
      exact register_two_fresh _ (by simp) _ (normalize_idem _) _ _ _ _ _ _
        (demo_name_ne_special "demo_deepdive_" _ ".md" (by decide))
        (demo_name_ne_special "demo_deepdive_" _ ".json" (by decide)) hmd
    refine ⟨by simp [run_demo_job, apply_ite Job.status],
      by simp [run_demo_job, apply_ite Job.return_code],
      by rw [hartifacts]; rfl, by rw [hartifacts]; rfl⟩
  · have hartifacts : (run_demo_job clock aid1 aid2 artifactRoot
        (mkJob id "protocol-positioning" created) payload).final.artifacts =
        [{ id := aid1, label := "Markdown",
           name := "demo_positioning_" ++ _slug (demoTarget payload) ++ ".md",
           path := normalize (artifactRoot ++ [(mkJob id "protocol-positioning"
             created).id]) ++
             ["demo_positioning_" ++ _slug (demoTarget payload) ++ ".md"] },
         { id := aid2, label := "Matrix CSV",
           name := "demo_positioning_" ++ _slug (demoTarget payload) ++ ".csv",
           path := normalize (artifactRoot ++ [(mkJob id "protocol-positioning"
             created).id]) ++
             ["demo_positioning_" ++ _slug (demoTarget payload) ++ ".csv"] }] := by
      simp only [run_demo_job, mkJob_tool]
      rw [if_neg (by decide : ¬("protocol-positioning" : String) =
        "competitive-deep-dive")]
      dsimp only [appendLogJob_artifacts]
      exact register_two_fresh _ (by simp) _ (normalize_idem _) _ _ _ _ _ _
        (demo_name_ne_special "demo_positioning_" _ ".md" (by decide))
        (demo_name_ne_special "demo_positioning_" _ ".csv" (by decide)) hmd2
    refine ⟨by simp [run_demo_job, apply_ite Job.status],
      by simp [run_demo_job, apply_ite Job.return_code],
      by rw [hartifacts]; rfl, by rw [hartifacts]; rfl⟩

/-! ## C1: the worker exception boundary -/

/-- C1 (amended): the catch-all protects only the live runner's `try`
block.  (a) In live mode an exception raised inside the `try` block
(spawn, stdin write, streaming, wait) is caught and leaves the job
`failed` with `return_code = -1`, `finished_at` set and the exception
text as `error`.  (b) An exception from the `build_stdin` call — which
sits before the `try` block — would propagate out of the live worker,
leaving the job in the non-terminal status `running` with `finished_at`
unset.  (c) `run_demo_job` has no handler at all: an exception from the
sandbox `mkdir` or either `write_text` propagates out of the demo
worker, leaving the job `running` with `finished_at` unset and no error
recorded. -/
theorem C1_worker_exception_boundary :
    (∀ (clock : ℕ → String) (extract : String → Option String)
       (fs : List String → FileKind) (toolRepo : List String) (ids : ℕ → String)
       (pythonBin : String) (id tool created : String) (payload : Payload)
       (lines : List String) (msg : String),
      (∃ s, build_stdin tool payload = Except.ok s) →
      (run_live_job clock extract fs toolRepo true ids pythonBin
          (mkJob id tool created) payload
          (LiveOutcome.streamRaises lines msg)).final.status = "failed" ∧
      (run_live_job clock extract fs toolRepo true ids pythonBin
          (mkJob id tool created) payload
          (LiveOutcome.streamRaises lines msg)).final.return_code = some (-1) ∧
      (run_live_job clock extract fs toolRepo true ids pythonBin
          (mkJob id tool created) payload
          (LiveOutcome.streamRaises lines msg)).final.finished_at =
        some (clock 2) ∧
      (run_live_job clock extract fs toolRepo true ids pythonBin
          (mkJob id tool created) payload
          (LiveOutcome.streamRaises lines msg)).final.error = some msg) ∧
    (∀ (clock : ℕ → String) (extract : String → Option String)
       (fs : List String → FileKind) (toolRepo : List String) (ids : ℕ → String)
       (pythonBin : String) (id tool created : String) (payload : Payload)
       (outcome : LiveOutcome),
      (∃ e, build_stdin tool payload = Except.error e) →
      (run_live_job clock extract fs toolRepo true ids pythonBin
          (mkJob id tool created) payload outcome).final.status = "running" ∧
      (run_live_job clock extract fs toolRepo true ids pythonBin
          (mkJob id tool created) payload outcome).final.finished_at = none) ∧
    (∀ (clock : ℕ → String) (aid1 aid2 : String) (artifactRoot : List String)
       (id tool created : String) (payload : Payload) (exc : DemoExc)
       (msg : String),
      (exc = DemoExc.atMkdir msg ∨ exc = DemoExc.atMdWrite msg ∨
        exc = DemoExc.atDataWrite msg) →
      (run_demo_job_exc clock aid1 aid2 artifactRoot (mkJob id tool created)
          payload exc).final.status = "running" ∧
      (run_demo_job_exc clock aid1 aid2 artifactRoot (mkJob id tool created)
          payload exc).final.finished_at = none ∧
      (run_demo_job_exc clock aid1 aid2 artifactRoot (mkJob id tool created)
          payload exc).final.error = none) := by
  refine ⟨fun clock extract fs toolRepo ids pythonBin id tool created payload
      lines msg hb => ?_,
    fun clock extract fs toolRepo ids pythonBin id tool created payload
      outcome hb => ?_,
    fun clock aid1 aid2 artifactRoot id tool created payload exc msg hexc => ?_⟩
  · obtain ⟨s, hs⟩ := hb
    refine ⟨?_, ?_, ?_, ?_⟩ <;> simp [run_live_job, hs]
  · obtain ⟨e, he⟩ := hb
    refine ⟨?_, ?_⟩ <;> simp [run_live_job, he]
  · rcases hexc with hexc | hexc | hexc <;> subst hexc <;>
      exact ⟨rfl, rfl, rfl⟩

/-- Counterexample to C1 as stated: in demo mode, an exception raised
while writing the markdown demo output file is NOT caught — the worker
ends with the job still in status `running` (not `failed`),
`finished_at` unset and `return_code` unset. -/
theorem C1_worker_exception_boundary_counterexample :
    (run_demo_job_exc cexClock "a1" "a2" ["tmp", "arts"]
        (mkJob "j1" "competitive-deep-dive" "0") payloadAcme
        (DemoExc.atMdWrite "disk full")).final.status = "running" ∧
    (run_demo_job_exc cexClock "a1" "a2" ["tmp", "arts"]
        (mkJob "j1" "competitive-deep-dive" "0") payloadAcme
        (DemoExc.atMdWrite "disk full")).final.status ≠ "failed" ∧
    (run_demo_job_exc cexClock "a1" "a2" ["tmp", "arts"]
        (mkJob "j1" "competitive-deep-dive" "0") payloadAcme
        (DemoExc.atMdWrite "disk full")).final.finished_at = none ∧
    (run_demo_job_exc cexClock "a1" "a2" ["tmp", "arts"]
        (mkJob "j1" "competitive-deep-dive" "0") payloadAcme
        (DemoExc.atMdWrite "disk full")).final.return_code = none := by
  have h1 : (run_demo_job_exc cexClock "a1" "a2" ["tmp", "arts"]
      (mkJob "j1" "competitive-deep-dive" "0") payloadAcme
      (DemoExc.atMdWrite "disk full")).final.status = "running" := rfl
  exact ⟨h1, by rw [h1]; decide, rfl, rfl⟩

/-- Witness for C1 (amended) at concrete inputs: a live streaming
exception with text `boom` is converted to `failed` with return code
`-1`, while a demo `mkdir` exception leaves the job `running`. -/
theorem C1_worker_exception_boundary_witness :
    ((run_live_job cexClock (fun _ => none) cexFsC3 ["dev", "cdd"] true
        (fun _ => "a") "python3" (mkJob "j1" "competitive-deep-dive" "0")
        payloadAcme (LiveOutcome.streamRaises [] "boom")).final.status =
      "failed" ∧
      (run_live_job cexClock (fun _ => none) cexFsC3 ["dev", "cdd"] true
        (fun _ => "a") "python3" (mkJob "j1" "competitive-deep-dive" "0")
        payloadAcme (LiveOutcome.streamRaises [] "boom")).final.return_code =
      some (-1) ∧
      (run_live_job cexClock (fun _ => none) cexFsC3 ["dev", "cdd"] true
        (fun _ => "a") "python3" (mkJob "j1" "competitive-deep-dive" "0")
        payloadAcme (LiveOutcome.streamRaises [] "boom")).final.error =
      some "boom") ∧
    ((run_demo_job_exc cexClock "a1" "a2" ["tmp", "arts"]
        (mkJob "j2" "competitive-deep-dive" "0") payloadAcme
        (DemoExc.atMkdir "disk full")).final.status = "running" ∧
      (run_demo_job_exc cexClock "a1" "a2" ["tmp", "arts"]
        (mkJob "j2" "competitive-deep-dive" "0") payloadAcme
        (DemoExc.atMkdir "disk full")).final.finished_at = none) := by
  have hlive := C1_worker_exception_boundary.1 cexClock (fun _ => none) cexFsC3
    ["dev", "cdd"] (fun _ => "a") "python3" "j1" "competitive-deep-dive" "0"
    payloadAcme [] "boom" ⟨"1\n\nAcme\n\n\n\n", rfl⟩
  have hdemo := C1_worker_exception_boundary.2.2 cexClock "a1" "a2"
    ["tmp", "arts"] "j2" "competitive-deep-dive" "0" payloadAcme
    (DemoExc.atMkdir "disk full") "disk full" (Or.inl rfl)
  exact ⟨⟨hlive.1, hlive.2.1, hlive.2.2.2⟩, hdemo.1, hdemo.2.1⟩

end ToolStudio
